import Mathlib

/-!
Verification development for the network-dashboard probe engine
(src/script.js). The JavaScript is shallowly embedded: the two-phase
probe `checkTarget`, the CHECKING/result state store written by
`runChecks`, the cursor-based worker pool, the summary counting in
`render`, and the `setInterval` scheduling are translated into Lean
definitions, and the specification's properties are proved (or refuted)
about those definitions.

Modelling conventions:
- Times are naturals (milliseconds). `performance.now() - t0` values are
  carried inside the network-outcome data: every elapsed figure in a
  fetch outcome is measured from `t0`, exactly as in the source where
  both `ms` (line 135) and `ms2` (line 152) subtract the single `t0`.
- The nondeterministic network is an explicit input: what each `fetch`
  call would do is a value of an outcome type, and `checkTarget` is a
  pure function of those outcomes.
- `fetch` called on an already-aborted `AbortSignal` rejects immediately
  with an `AbortError` and performs no network request (Fetch standard);
  `fetchNoCors` encodes this, and `checkTarget` additionally reports
  whether the phase-2 call reached the network.
-/

namespace NetworkDashboard

/-- The five probe statuses appearing in `script.js`. -/
inductive Status where
  | CHECKING
  | UP
  | UP_OPAQUE
  | SLOW
  | DOWN
deriving DecidableEq, Repr

/-- The object literal returned by `checkTarget`: `status`, `latencyMs`
(`none` models JavaScript `null`), `note`. -/
structure ProbeResult where
  status : Status
  latencyMs : Option Nat
  note : String
deriving DecidableEq, Repr

/-- Outcome of the phase-1 `fetch` (line 129): it resolves with a readable
status `code` after `ms` milliseconds from `t0`, or rejects with an
`AbortError` because the probe deadline fired, or rejects with some other
error (typically a CORS `TypeError`) before the deadline. -/
inductive FetchOutcome1 where
  | resolved (code : Nat) (ms : Nat)
  | aborted
  | failed
deriving DecidableEq, Repr

/-- Outcome the network would give the phase-2 `no-cors` fetch (line 145),
were it issued with a live signal: an opaque response after `ms2`
milliseconds from `t0`, a readable (non-opaque) response with status
`code` after `ms2` milliseconds from `t0`, rejection by the deadline
firing, or rejection with another error. -/
inductive FetchOutcome2 where
  | resolvedOpaque (ms2 : Nat)
  | resolvedReadable (code : Nat) (ms2 : Nat)
  | aborted
  | failed
deriving DecidableEq, Repr

/-- `res.ok` of the Fetch API: status in the range 200–299. -/
def statusOk (code : Nat) : Bool :=
  200 ≤ code && code < 300

/-- Semantics of the phase-2 `fetch` call in `no-cors` mode with the shared
signal: if the probe's signal has already aborted (the deadline fired during
phase 1) the call rejects immediately with an `AbortError` and no network
request is issued; otherwise the network decides. The boolean records
whether a network request was issued. -/
def fetchNoCors (signalAborted : Bool) (net : FetchOutcome2) :
    FetchOutcome2 × Bool :=
  if signalAborted then (FetchOutcome2.aborted, false) else (net, true)

/-- Classification of a phase-1 response whose status is readable
(lines 135–140): `ok` status gives `UP`, or `SLOW` past 1200 ms; non-ok
gives `DOWN`; latency and the `HTTP <code>` note are attached. -/
def phase1Classify (code : Nat) (ms : Nat) : ProbeResult :=
  if statusOk code then
    { status := if ms > 1200 then Status.SLOW else Status.UP
      latencyMs := some ms
      note := "HTTP " ++ toString code }
  else
    { status := Status.DOWN, latencyMs := some ms, note := "HTTP " ++ toString code }

/-- Classification of the phase-2 attempt (lines 152–163): an opaque
response gives `UP_OPAQUE` (or `SLOW` past 1200 ms) with note
"CORS blocked details"; any other resolved response gives `UP`/`SLOW`
with note "OK" without consulting its status; an `AbortError` gives
`DOWN`/"timeout"; any other rejection gives `DOWN`/"unreachable", the
latter two with `latencyMs` null. -/
def phase2Classify (o : FetchOutcome2) : ProbeResult :=
  match o with
  | FetchOutcome2.resolvedOpaque ms2 =>
      { status := if ms2 > 1200 then Status.SLOW else Status.UP_OPAQUE
        latencyMs := some ms2
        note := "CORS blocked details" }
  | FetchOutcome2.resolvedReadable _ ms2 =>
      { status := if ms2 > 1200 then Status.SLOW else Status.UP
        latencyMs := some ms2
        note := "OK" }
  | FetchOutcome2.aborted =>
      { status := Status.DOWN, latencyMs := none, note := "timeout" }
  | FetchOutcome2.failed =>
      { status := Status.DOWN, latencyMs := none, note := "unreachable" }

/-- The probe `checkTarget` (lines 120–166) as a function of what the
network does: `p1` is the outcome of the phase-1 fetch, `net2` is what
the network would answer the phase-2 fetch. Returns the `ProbeResult`
together with a flag telling whether a phase-2 network request was
issued. When phase 1 rejects with an `AbortError` the shared signal is
already aborted, so `fetchNoCors` short-circuits. -/
def checkTarget (p1 : FetchOutcome1) (net2 : FetchOutcome2) :
    ProbeResult × Bool :=
  match p1 with
  | FetchOutcome1.resolved code ms => (phase1Classify code ms, false)
  | FetchOutcome1.aborted =>
      let f := fetchNoCors true net2
      (phase2Classify f.1, f.2)
  | FetchOutcome1.failed =>
      let f := fetchNoCors false net2
      (phase2Classify f.1, f.2)

/-- An "otherwise successful" resolution in the sense of the threshold
law: phase 1 resolved with an ok status, or phase 1 failed non-fatally
and phase 2 resolved (opaquely or readably). -/
def successOutcome (p1 : FetchOutcome1) (net2 : FetchOutcome2) : Prop :=
  (∃ code ms, p1 = FetchOutcome1.resolved code ms ∧ statusOk code = true) ∨
  (p1 = FetchOutcome1.failed ∧
    ((∃ ms2, net2 = FetchOutcome2.resolvedOpaque ms2) ∨
     (∃ code ms2, net2 = FetchOutcome2.resolvedReadable code ms2)))

/-- One slot of the `state` map (line 38):
`url -> (status, latencyMs, lastChecked, note)`. -/
structure StoreEntry where
  status : Status
  latencyMs : Option Nat
  lastChecked : Nat
  note : String
deriving DecidableEq, Repr

/-- The `state` map: a JavaScript `Map` has exactly one slot per key, so
it is modelled as a function from URLs to an optional entry. -/
def StateStore : Type := String → Option StoreEntry

/-- `state.set(url, e)` (lines 175 and 187). -/
def setStore (st : StateStore) (url : String) (e : StoreEntry) : StateStore :=
  fun u => if u = url then some e else st u

/-- The entry written for every target at cycle start (line 175):
status CHECKING, `latencyMs` null, empty note. -/
def checkingEntry (t0 : Nat) : StoreEntry :=
  { status := Status.CHECKING, latencyMs := none, lastChecked := t0, note := "" }

/-- One element of the TARGETS list (lines 14–25). -/
structure Target where
  name : String
  kind : String
  url : String
deriving DecidableEq, Repr

/-- The loop at lines 174–176: set every target's entry to CHECKING, in
list order. -/
def setChecking (targets : List Target) (st : StateStore) (t0 : Nat) : StateStore :=
  match targets with
  | [] => st
  | t :: rest => setChecking rest (setStore st t.url (checkingEntry t0)) t0

/-- The store entry written when the probe of target index `idx` completes
(lines 187–192): the ProbeResult's fields plus the completion time.
`net idx` is what the network does for that probe, `times idx` the
`Date.now()` at its completion. -/
def probeEntry (net : Nat → FetchOutcome1 × FetchOutcome2) (times : Nat → Nat)
    (idx : Nat) : StoreEntry :=
  let r := (checkTarget (net idx).1 (net idx).2).1
  { status := r.status, latencyMs := r.latencyMs, lastChecked := times idx, note := r.note }

/-- Control position of one worker task of the pool (lines 181–196):
before/between loop iterations with the cursor test still to run (`idle`),
awaiting the probe of a claimed index (`probing idx`), or exited (`done`). -/
inductive WStatus where
  | idle
  | probing (idx : Nat)
  | done
deriving DecidableEq, Repr

/-- Global state of one `runChecks` cycle: the shared cursor `i`, the
worker tasks, the trace of claims (worker position, claimed index) in
claim order, the indices whose probes have completed, and the `state`
map. -/
structure PoolState where
  cursor : Nat
  workers : List WStatus
  claims : List (Nat × Nat)
  completed : List Nat
  store : StateStore

/-- Whether a worker currently has a probe in flight. -/
def isProbing : WStatus → Bool
  | WStatus.probing _ => true
  | _ => false

/-- Number of probes in flight. -/
def inFlight (s : PoolState) : Nat := s.workers.countP isProbing

/-- Interleaving semantics of the worker pool (lines 180–196). A worker is
addressed by splitting the worker list as `l1 ++ w :: l2`. The three
atomic steps: `claim` is the `i < TARGETS.length` test together with
`const idx = i++` — atomic because no `await` separates them; `finish` is
the same test failing, ending the task; `complete` is the resumption
after `await checkTarget`, which writes the probe's entry into the store.
The claim trace records `(l1.length, idx)`: which worker claimed which
index. -/
inductive PoolStep (targets : List Target)
    (net : Nat → FetchOutcome1 × FetchOutcome2) (times : Nat → Nat) :
    PoolState → PoolState → Prop where
  | claim (cursor : Nat) (l1 l2 : List WStatus) (cl : List (Nat × Nat))
      (cp : List Nat) (st : StateStore) (hc : cursor < targets.length) :
      PoolStep targets net times
        ⟨cursor, l1 ++ WStatus.idle :: l2, cl, cp, st⟩
        ⟨cursor + 1, l1 ++ WStatus.probing cursor :: l2,
          cl ++ [(l1.length, cursor)], cp, st⟩
  | finish (cursor : Nat) (l1 l2 : List WStatus) (cl : List (Nat × Nat))
      (cp : List Nat) (st : StateStore) (hc : targets.length ≤ cursor) :
      PoolStep targets net times
        ⟨cursor, l1 ++ WStatus.idle :: l2, cl, cp, st⟩
        ⟨cursor, l1 ++ WStatus.done :: l2, cl, cp, st⟩
  | complete (cursor : Nat) (l1 l2 : List WStatus) (idx : Nat)
      (cl : List (Nat × Nat)) (cp : List Nat) (st : StateStore) (t : Target)
      (ht : targets[idx]? = some t) :
      PoolStep targets net times
        ⟨cursor, l1 ++ WStatus.probing idx :: l2, cl, cp, st⟩
        ⟨cursor, l1 ++ WStatus.idle :: l2, cl, idx :: cp,
          setStore st t.url (probeEntry net times idx)⟩

/-- State at the start of a cycle, after the synchronous CHECKING pass
(lines 174–177) and the creation of exactly `concurrency` worker tasks
(line 181): cursor 0, all workers idle, no claims, no completions. -/
def initState (targets : List Target) (concurrency : Nat) (st0 : StateStore)
    (t0 : Nat) : PoolState :=
  ⟨0, List.replicate concurrency WStatus.idle, [], [],
    setChecking targets st0 t0⟩

/-- Reachability by interleaved pool steps. -/
abbrev Reachable (targets : List Target) (net : Nat → FetchOutcome1 × FetchOutcome2)
    (times : Nat → Nat) : PoolState → PoolState → Prop :=
  Relation.ReflTransGen (PoolStep targets net times)

/-- All worker tasks have exited: `Promise.all(workers)` (line 198) has
resolved and `runChecks` resolves. -/
def Terminal (s : PoolState) : Prop := ∀ w ∈ s.workers, w = WStatus.done

/-- Inductive invariant of a cycle, used for the pool claims. -/
structure PoolInv (targets : List Target) (concurrency : Nat) (s : PoolState) :
    Prop where
  workersLen : s.workers.length = concurrency
  cursorLe : s.cursor ≤ targets.length
  claimsEq : s.claims.map Prod.snd = List.range s.cursor
  coverage : ∀ i < s.cursor, i ∈ s.completed ∨ WStatus.probing i ∈ s.workers
  doneCursor : WStatus.done ∈ s.workers → targets.length ≤ s.cursor
  completedDone : ∀ i ∈ s.completed, ∃ t, targets[i]? = some t ∧
    ∃ e, s.store t.url = some e ∧ e.status ≠ Status.CHECKING

/-- Aggregate counters of the summary loop (lines 81–88). -/
structure Summary where
  up : Nat
  down : Nat
  checking : Nat
deriving DecidableEq, Repr

/-- One iteration of the summary loop (lines 83–87): a missing entry
counts as checking; UP and UP_OPAQUE count as up; DOWN counts as down;
everything else counts as checking. -/
def tallyTarget (acc : Summary) (s : Option StoreEntry) : Summary :=
  match s with
  | none => { acc with checking := acc.checking + 1 }
  | some e =>
      if e.status = Status.UP ∨ e.status = Status.UP_OPAQUE then
        { acc with up := acc.up + 1 }
      else if e.status = Status.DOWN then
        { acc with down := acc.down + 1 }
      else
        { acc with checking := acc.checking + 1 }

/-- The whole summary loop of `render` (lines 81–88). -/
def summaryCounts (targets : List Target) (store : StateStore) : Summary :=
  targets.foldl (fun acc t => tallyTarget acc (store t.url)) ⟨0, 0, 0⟩

/-- Membership in the up bucket of the summary. -/
def isUpBucket : Option StoreEntry → Bool
  | some e =>
      match e.status with
      | Status.UP => true
      | Status.UP_OPAQUE => true
      | _ => false
  | none => false

/-- Membership in the down bucket of the summary. -/
def isDownBucket : Option StoreEntry → Bool
  | some e =>
      match e.status with
      | Status.DOWN => true
      | _ => false
  | none => false

/-- Membership in the checking bucket: everything in neither other bucket. -/
def isCheckingBucket (s : Option StoreEntry) : Bool :=
  !(isUpBucket s || isDownBucket s)

/-- REFRESH_EVERY_MS (line 10). -/
def REFRESH_EVERY_MS : Nat := 120000

/-- TIMEOUT_MS (line 11). -/
def TIMEOUT_MS : Nat := 8000

/-- CONCURRENCY (line 12). -/
def CONCURRENCY : Nat := 6

/-- Upper bound of the jitter term `Math.floor(Math.random() * 1500)`
(line 213). -/
def JITTER_BOUND_MS : Nat := 1500

/-- `Math.floor(Math.random() * 1500)`: an integer uniformly in
0 ≤ j < 1500; a raw draw `r` is reduced modulo the bound. -/
def jitterDraw (r : Nat) : Nat := r % JITTER_BOUND_MS

/-- The delay argument of the `setInterval` call (line 213). JavaScript
evaluates it once, when `setInterval` is called, from a single random
draw. -/
def setIntervalDelay (r : Nat) : Nat := REFRESH_EVERY_MS + jitterDraw r

/-- Time of the k-th periodic firing (0-indexed) after startup, given the
stream of random draws: `setInterval` fires at multiples of its fixed
delay, which consumes only the first draw. -/
def schedulerFiringTime (draws : Nat → Nat) (k : Nat) : Nat :=
  (k + 1) * setIntervalDelay (draws 0)

/-- Delay between the k-th periodic firing and the previous one (startup,
time 0, for k = 0). -/
def schedulerDelayBefore (draws : Nat → Nat) (k : Nat) : Nat :=
  schedulerFiringTime draws k -
    (if k = 0 then 0 else schedulerFiringTime draws (k - 1))

/-- The scheduler delay as the specification describes it: the jitter is
recomputed freshly for each firing, so the delay before the k-th firing
consumes the k-th draw. -/
def schedulerDelayBeforeSpec (draws : Nat → Nat) (k : Nat) : Nat :=
  REFRESH_EVERY_MS + jitterDraw (draws k)

/-- A concrete target for witness runs. -/
def demoTarget : Target :=
  { name := "example", kind := "WEBSITE", url := "https://example.test/" }

/-- A one-element target list for witness runs. -/
def demoTargets : List Target := [demoTarget]

/-- A network giving every probe a 200 response after 300 ms. -/
def demoNet : Nat → FetchOutcome1 × FetchOutcome2 :=
  fun _ => (FetchOutcome1.resolved 200 300, FetchOutcome2.failed)

/-- Completion clock for witness runs. -/
def demoTimes : Nat → Nat := fun _ => 5

/-- The empty store. -/
def emptyStore : StateStore := fun _ => none

/-- A concrete SLOW store entry for witness statements. -/
def slowDemoEntry : StoreEntry :=
  { status := Status.SLOW, latencyMs := some 10, lastChecked := 0, note := "" }

/-- Final state of the one-target, one-worker demo cycle: the single
worker claimed index 0, completed its probe, then exited. -/
def demoRunState : PoolState :=
  ⟨1, [WStatus.done], [(0, 0)], [0],
    setStore (setChecking demoTargets emptyStore 0) demoTarget.url
      (probeEntry demoNet demoTimes 0)⟩

/-! ## Helper lemmas about the probe -/

theorem checkTarget_resolved_ok (code ms : Nat) (net2 : FetchOutcome2)
    (hok : statusOk code = true) :
    checkTarget (FetchOutcome1.resolved code ms) net2 =
      ({ status := if 1200 < ms then Status.SLOW else Status.UP
         latencyMs := some ms
         note := "HTTP " ++ toString code }, false) := by
  simp [checkTarget, phase1Classify, hok]

theorem checkTarget_resolved_notok (code ms : Nat) (net2 : FetchOutcome2)
    (hok : statusOk code = false) :
    checkTarget (FetchOutcome1.resolved code ms) net2 =
      ({ status := Status.DOWN
         latencyMs := some ms
         note := "HTTP " ++ toString code }, false) := by
  simp [checkTarget, phase1Classify, hok]

theorem checkTarget_aborted_eq (net2 : FetchOutcome2) :
    checkTarget FetchOutcome1.aborted net2 =
      ({ status := Status.DOWN, latencyMs := none, note := "timeout" }, false) := by
  simp [checkTarget, fetchNoCors, phase2Classify]

theorem checkTarget_failed_eq (net2 : FetchOutcome2) :
    checkTarget FetchOutcome1.failed net2 = (phase2Classify net2, true) := by
  simp [checkTarget, fetchNoCors]

theorem checkTarget_status_cases (p1 : FetchOutcome1) (net2 : FetchOutcome2) :
    (checkTarget p1 net2).1.status = Status.UP ∨
    (checkTarget p1 net2).1.status = Status.UP_OPAQUE ∨
    (checkTarget p1 net2).1.status = Status.SLOW ∨
    (checkTarget p1 net2).1.status = Status.DOWN := by
  cases p1 with
  | resolved code ms =>
      cases hok : statusOk code with
      | false => rw [checkTarget_resolved_notok code ms net2 hok]; simp
      | true =>
          rw [checkTarget_resolved_ok code ms net2 hok]
          by_cases h : 1200 < ms <;> simp [h]
  | aborted => rw [checkTarget_aborted_eq net2]; simp
  | failed =>
      rw [checkTarget_failed_eq net2]
      cases net2 with
      | resolvedOpaque ms2 => by_cases h : 1200 < ms2 <;> simp [phase2Classify, h]
      | resolvedReadable code ms2 =>
          by_cases h : 1200 < ms2 <;> simp [phase2Classify, h]
      | aborted => simp [phase2Classify]
      | failed => simp [phase2Classify]

theorem checkTarget_status_ne_checking (p1 : FetchOutcome1) (net2 : FetchOutcome2) :
    (checkTarget p1 net2).1.status ≠ Status.CHECKING := by
  rcases checkTarget_status_cases p1 net2 with h | h | h | h <;> rw [h] <;> simp

theorem probeEntry_status_ne_checking (net : Nat → FetchOutcome1 × FetchOutcome2)
    (times : Nat → Nat) (idx : Nat) :
    (probeEntry net times idx).status ≠ Status.CHECKING :=
  checkTarget_status_ne_checking (net idx).1 (net idx).2

/-! ## C1: the 1200 ms threshold law -/

/-- C1: for every probe that resolves, if the elapsed time measured from
t0 (cumulative across both phases — the latency the probe reports) is at
most 1200 ms the classification is never SLOW, and for an otherwise
successful outcome it is UP or UP_OPAQUE; if the elapsed time exceeds
1200 ms while the outcome is otherwise successful (readable ok status, or
a resolved phase 2), the classification is SLOW and never UP or
UP_OPAQUE. -/
theorem threshold_law (p1 : FetchOutcome1) (net2 : FetchOutcome2) :
    (∀ ms, (checkTarget p1 net2).1.latencyMs = some ms → ms ≤ 1200 →
      (checkTarget p1 net2).1.status ≠ Status.SLOW) ∧
    (successOutcome p1 net2 →
      ∃ ms, (checkTarget p1 net2).1.latencyMs = some ms ∧
        (ms ≤ 1200 →
          ((checkTarget p1 net2).1.status = Status.UP ∨
           (checkTarget p1 net2).1.status = Status.UP_OPAQUE)) ∧
        (1200 < ms →
          ((checkTarget p1 net2).1.status = Status.SLOW ∧
           (checkTarget p1 net2).1.status ≠ Status.UP ∧
           (checkTarget p1 net2).1.status ≠ Status.UP_OPAQUE))) := by
  constructor
  · intro ms hms hle
    cases p1 with
    | resolved code ms1 =>
        cases hok : statusOk code with
        | false => rw [checkTarget_resolved_notok code ms1 net2 hok]; simp
        | true =>
            rw [checkTarget_resolved_ok code ms1 net2 hok] at hms ⊢
            simp only [Option.some.injEq] at hms
            subst hms
            have h : ¬ 1200 < ms1 := by omega
            simp [h]
    | aborted => rw [checkTarget_aborted_eq net2] at hms; simp at hms
    | failed =>
        rw [checkTarget_failed_eq net2] at hms ⊢
        cases net2 with
        | resolvedOpaque ms2 =>
            simp only [phase2Classify, Option.some.injEq] at hms
            subst hms
            have h : ¬ 1200 < ms2 := by omega
            simp [phase2Classify, h]
        | resolvedReadable code ms2 =>
            simp only [phase2Classify, Option.some.injEq] at hms
            subst hms
            have h : ¬ 1200 < ms2 := by omega
            simp [phase2Classify, h]
        | aborted => simp [phase2Classify] at hms
        | failed => simp [phase2Classify] at hms
  · intro hsucc
    rcases hsucc with ⟨code, ms, hp1, hok⟩ | ⟨hp1, hres⟩
    · subst hp1
      rw [checkTarget_resolved_ok code ms net2 hok]
      refine ⟨ms, by simp, ?_, ?_⟩
      · intro hle
        have h : ¬ 1200 < ms := by omega
        simp [h]
      · intro hgt
        simp [hgt]
    · subst hp1
      rw [checkTarget_failed_eq net2]
      rcases hres with ⟨ms2, hnet⟩ | ⟨code, ms2, hnet⟩ <;> subst hnet
      · refine ⟨ms2, by simp [phase2Classify], ?_, ?_⟩
        · intro hle
          have h : ¬ 1200 < ms2 := by omega
          simp [phase2Classify, h]
        · intro hgt
          simp [phase2Classify, hgt]
      · refine ⟨ms2, by simp [phase2Classify], ?_, ?_⟩
        · intro hle
          have h : ¬ 1200 < ms2 := by omega
          simp [phase2Classify, h]
        · intro hgt
          simp [phase2Classify, hgt]

/-- C1 witness: a 200 response after 300 ms is classified UP, not SLOW. -/
theorem threshold_law_witness :
    ((checkTarget (FetchOutcome1.resolved 200 300) FetchOutcome2.failed).1.status ≠
      Status.SLOW) ∧
    (∃ ms, (checkTarget (FetchOutcome1.resolved 200 300) FetchOutcome2.failed).1.latencyMs
        = some ms ∧
      (ms ≤ 1200 →
        ((checkTarget (FetchOutcome1.resolved 200 300) FetchOutcome2.failed).1.status
            = Status.UP ∨
         (checkTarget (FetchOutcome1.resolved 200 300) FetchOutcome2.failed).1.status
            = Status.UP_OPAQUE)) ∧
      (1200 < ms →
        ((checkTarget (FetchOutcome1.resolved 200 300) FetchOutcome2.failed).1.status
            = Status.SLOW ∧
         (checkTarget (FetchOutcome1.resolved 200 300) FetchOutcome2.failed).1.status
            ≠ Status.UP ∧
         (checkTarget (FetchOutcome1.resolved 200 300) FetchOutcome2.failed).1.status
            ≠ Status.UP_OPAQUE))) :=
  ⟨(threshold_law (FetchOutcome1.resolved 200 300) FetchOutcome2.failed).1 300
      (by decide) (by decide),
   (threshold_law (FetchOutcome1.resolved 200 300) FetchOutcome2.failed).2
      (Or.inl ⟨200, 300, rfl, by decide⟩)⟩

/-! ## C2: latency presence -/

/-- C2: a probe's `latencyMs` is present exactly when the status is UP,
UP_OPAQUE or SLOW, or the status is DOWN obtained from a phase-1 response
with a readable non-ok status; and the CHECKING entry written at cycle
start always has `latencyMs` absent. DOWN via timeout or unreachable
falls under the negation of the right-hand side, so its latency is
absent. -/
theorem latency_presence (p1 : FetchOutcome1) (net2 : FetchOutcome2) (t0 : Nat) :
    ((checkTarget p1 net2).1.latencyMs.isSome = true ↔
      ((checkTarget p1 net2).1.status = Status.UP ∨
       (checkTarget p1 net2).1.status = Status.UP_OPAQUE ∨
       (checkTarget p1 net2).1.status = Status.SLOW ∨
       ((checkTarget p1 net2).1.status = Status.DOWN ∧
        ∃ code ms, p1 = FetchOutcome1.resolved code ms ∧ statusOk code = false))) ∧
    (checkingEntry t0).latencyMs = none := by
  refine ⟨?_, rfl⟩
  cases p1 with
  | resolved code ms =>
      cases hok : statusOk code with
      | false =>
          rw [checkTarget_resolved_notok code ms net2 hok]
          simp [hok]
      | true =>
          rw [checkTarget_resolved_ok code ms net2 hok]
          by_cases h : 1200 < ms <;> simp [h]
  | aborted =>
      rw [checkTarget_aborted_eq net2]
      simp
  | failed =>
      rw [checkTarget_failed_eq net2]
      cases net2 with
      | resolvedOpaque ms2 => by_cases h : 1200 < ms2 <;> simp [phase2Classify, h]
      | resolvedReadable code ms2 =>
          by_cases h : 1200 < ms2 <;> simp [phase2Classify, h]
      | aborted => simp [phase2Classify]
      | failed => simp [phase2Classify]

/-! ## C3: phase-1 timeout -/

/-- C3: when phase 1 fails because the deadline fired, the result is DOWN
with note "timeout" and absent latency, and no phase-2 network attempt is
made (the second fetch sees the already-aborted signal and rejects
immediately without network activity — the flag in the second component
is false). -/
theorem phase1_timeout_no_phase2 (net2 : FetchOutcome2) :
    (checkTarget FetchOutcome1.aborted net2).1.status = Status.DOWN ∧
    (checkTarget FetchOutcome1.aborted net2).1.note = "timeout" ∧
    (checkTarget FetchOutcome1.aborted net2).1.latencyMs = none ∧
    (checkTarget FetchOutcome1.aborted net2).2 = false := by
  rw [checkTarget_aborted_eq net2]
  exact ⟨rfl, rfl, rfl, rfl⟩

/-! ## C4: the probe is total and encodes every failure mode -/

/-- C4: for every phase-1 and phase-2 network outcome, `checkTarget`
returns a ProbeResult (it is a total function, so it never signals
failure to its caller), whose status is one of UP, UP_OPAQUE, SLOW, DOWN;
and each failure mode is encoded in the result: a readable non-ok status
gives DOWN with the status-code note, a visibility-restricted (opaque)
resolution is marked with the "CORS blocked details" note, a deadline
timeout in either phase gives DOWN/"timeout", and an unreachable target
gives DOWN/"unreachable". -/
theorem probe_total_encoding (p1 : FetchOutcome1) (net2 : FetchOutcome2) :
    ((checkTarget p1 net2).1.status = Status.UP ∨
     (checkTarget p1 net2).1.status = Status.UP_OPAQUE ∨
     (checkTarget p1 net2).1.status = Status.SLOW ∨
     (checkTarget p1 net2).1.status = Status.DOWN) ∧
    (∀ code ms, p1 = FetchOutcome1.resolved code ms → statusOk code = false →
      (checkTarget p1 net2).1 =
        { status := Status.DOWN, latencyMs := some ms
          note := "HTTP " ++ toString code }) ∧
    (∀ ms2, p1 = FetchOutcome1.failed →
      net2 = FetchOutcome2.resolvedOpaque ms2 →
      (checkTarget p1 net2).1.note = "CORS blocked details") ∧
    (p1 = FetchOutcome1.aborted ∨
        (p1 = FetchOutcome1.failed ∧ net2 = FetchOutcome2.aborted) →
      (checkTarget p1 net2).1 =
        { status := Status.DOWN, latencyMs := none, note := "timeout" }) ∧
    (p1 = FetchOutcome1.failed → net2 = FetchOutcome2.failed →
      (checkTarget p1 net2).1 =
        { status := Status.DOWN, latencyMs := none, note := "unreachable" }) := by
  refine ⟨checkTarget_status_cases p1 net2, ?_, ?_, ?_, ?_⟩
  · intro code ms hp1 hok
    subst hp1
    rw [checkTarget_resolved_notok code ms net2 hok]
  · intro ms2 hp1 hnet
    subst hp1; subst hnet
    rw [checkTarget_failed_eq]
    rfl
  · intro h
    rcases h with hp1 | ⟨hp1, hnet⟩
    · subst hp1
      rw [checkTarget_aborted_eq net2]
    · subst hp1; subst hnet
      rw [checkTarget_failed_eq]
      rfl
  · intro hp1 hnet
    subst hp1; subst hnet
    rw [checkTarget_failed_eq]
    rfl

/-- C4 witness: a readable 500 after 50 ms is encoded as
DOWN / "HTTP 500" with latency 50, and the status of this result is one
of the four non-CHECKING statuses. -/
theorem probe_total_encoding_witness :
    ((checkTarget (FetchOutcome1.resolved 500 50) FetchOutcome2.failed).1.status
        = Status.UP ∨
     (checkTarget (FetchOutcome1.resolved 500 50) FetchOutcome2.failed).1.status
        = Status.UP_OPAQUE ∨
     (checkTarget (FetchOutcome1.resolved 500 50) FetchOutcome2.failed).1.status
        = Status.SLOW ∨
     (checkTarget (FetchOutcome1.resolved 500 50) FetchOutcome2.failed).1.status
        = Status.DOWN) ∧
    (checkTarget (FetchOutcome1.resolved 500 50) FetchOutcome2.failed).1 =
      { status := Status.DOWN, latencyMs := some 50, note := "HTTP " ++ toString 500 } :=
  ⟨(probe_total_encoding (FetchOutcome1.resolved 500 50) FetchOutcome2.failed).1,
   (probe_total_encoding (FetchOutcome1.resolved 500 50) FetchOutcome2.failed).2.1
      500 50 rfl (by decide)⟩

/-! ## C9: phase 2 ignores the status code of a readable response -/

/-- C9: when phase 1 fails non-fatally and the phase-2 no-cors request
resolves with a non-opaque (readable) response, the classification is UP,
or SLOW past 1200 ms, with note "OK", for every HTTP status code of that
response — in particular it is never DOWN. The right-hand side does not
mention `code`. -/
theorem phase2_readable_ignores_status (code ms2 : Nat) :
    (checkTarget FetchOutcome1.failed (FetchOutcome2.resolvedReadable code ms2)).1 =
      { status := if 1200 < ms2 then Status.SLOW else Status.UP
        latencyMs := some ms2
        note := "OK" } ∧
    (checkTarget FetchOutcome1.failed
        (FetchOutcome2.resolvedReadable code ms2)).1.status ≠ Status.DOWN := by
  rw [checkTarget_failed_eq]
  constructor
  · rfl
  · show (phase2Classify (FetchOutcome2.resolvedReadable code ms2)).status ≠ Status.DOWN
    by_cases h : 1200 < ms2 <;> simp [phase2Classify, h]

/-! ## C8: scheduler jitter -/

/-- C8 counterexample: the delay before a later periodic firing does not
equal refreshIntervalMs plus a jitter recomputed from that firing's own
random draw. With the draw stream 0, 1, 2, ... the code's second firing
comes after the fixed delay 120000 ms, while a per-firing recomputation
would give 120001 ms: the delay argument of `setInterval` is evaluated
once, so the jitter is sampled once and reused. -/
theorem scheduler_jitter_counterexample :
    schedulerDelayBefore (fun n => n) 1 ≠
      schedulerDelayBeforeSpec (fun n => n) 1 := by
  decide

/-- C8 amended: after the immediate startup cycle, every periodic firing
occurs after one and the same delay of refreshIntervalMs plus a jitter in
[0, 1500 ms) that is sampled once, when `setInterval` is installed, and
reused for every firing (rather than recomputed per firing). -/
theorem scheduler_fixed_jitter (draws : Nat → Nat) (k : Nat) :
    schedulerDelayBefore draws k = REFRESH_EVERY_MS + jitterDraw (draws 0) ∧
    jitterDraw (draws 0) < JITTER_BOUND_MS := by
  constructor
  · cases k with
    | zero =>
        simp [schedulerDelayBefore, schedulerFiringTime, setIntervalDelay]
    | succ k =>
        simp only [schedulerDelayBefore, schedulerFiringTime,
          setIntervalDelay, Nat.succ_ne_zero, if_false, Nat.succ_sub_one]
        rw [Nat.succ_mul]
        omega
  · exact Nat.mod_lt _ (by decide)

/-! ## C10: summary bucket counts -/

theorem tally_foldl (l : List (Option StoreEntry)) (acc : Summary) :
    l.foldl tallyTarget acc =
      { up := acc.up + l.countP isUpBucket
        down := acc.down + l.countP isDownBucket
        checking := acc.checking + l.countP isCheckingBucket } := by
  induction l generalizing acc with
  | nil => simp
  | cons s rest ih =>
      rw [List.foldl_cons, ih]
      cases s with
      | none =>
          simp [tallyTarget, isUpBucket, isDownBucket, isCheckingBucket,
            List.countP_cons]
          omega
      | some e =>
          cases he : e.status <;>
            simp [tallyTarget, isUpBucket, isDownBucket, isCheckingBucket,
              he, List.countP_cons] <;>
            omega

/-- C10: the summary loop of `render` counts a SLOW target in the
checking bucket, not the up bucket: the up count covers exactly UP and
UP_OPAQUE entries, the down count exactly DOWN entries, and every other
per-target lookup (CHECKING, SLOW, or a missing entry) goes to the
checking count. -/
theorem summary_buckets (targets : List Target) (store : StateStore) :
    summaryCounts targets store =
      { up := (targets.map (fun t => store t.url)).countP isUpBucket
        down := (targets.map (fun t => store t.url)).countP isDownBucket
        checking := (targets.map (fun t => store t.url)).countP isCheckingBucket } ∧
    (∀ e : StoreEntry, e.status = Status.SLOW →
      isCheckingBucket (some e) = true ∧ isUpBucket (some e) = false ∧
      isDownBucket (some e) = false) ∧
    (∀ e : StoreEntry, isUpBucket (some e) = true ↔
      (e.status = Status.UP ∨ e.status = Status.UP_OPAQUE)) ∧
    (∀ e : StoreEntry, isDownBucket (some e) = true ↔ e.status = Status.DOWN) ∧
    isCheckingBucket none = true := by
  refine ⟨?_, ?_, ?_, ?_, rfl⟩
  · show targets.foldl (fun acc t => tallyTarget acc (store t.url)) ⟨0, 0, 0⟩ = _
    rw [← List.foldl_map (fun t => store t.url) tallyTarget targets ⟨0, 0, 0⟩]
    rw [tally_foldl]
    simp
  · intro e he
    refine ⟨?_, ?_, ?_⟩ <;> simp [isCheckingBucket, isUpBucket, isDownBucket, he]
  · intro e
    cases he : e.status <;> simp [isUpBucket, he]
  · intro e
    cases he : e.status <;> simp [isDownBucket, he]

/-- C10 witness: a stored SLOW entry is tallied as checking and not as
up or down. -/
theorem summary_buckets_witness :
    isCheckingBucket (some slowDemoEntry) = true ∧
    isUpBucket (some slowDemoEntry) = false ∧
    isDownBucket (some slowDemoEntry) = false :=
  (summary_buckets [] emptyStore).2.1 slowDemoEntry rfl

/-! ## Pool invariant machinery -/

theorem setStore_self (st : StateStore) (url : String) (e : StoreEntry) :
    setStore st url e url = some e := by
  simp [setStore]

theorem setStore_other (st : StateStore) (url u : String) (e : StoreEntry)
    (h : u ≠ url) : setStore st url e u = st u := by
  simp [setStore, h]

theorem initState_inv (targets : List Target) (concurrency : Nat)
    (st0 : StateStore) (t0 : Nat) :
    PoolInv targets concurrency (initState targets concurrency st0 t0) := by
  refine ⟨?_, ?_, ?_, ?_, ?_, ?_⟩
  · simp [initState]
  · simp [initState]
  · simp [initState]
  · intro i hi
    simp [initState] at hi
  · intro h
    simp [initState, List.mem_replicate] at h
  · intro i hi
    simp [initState] at hi

theorem poolStep_inv {targets : List Target}
    {net : Nat → FetchOutcome1 × FetchOutcome2} {times : Nat → Nat}
    {concurrency : Nat} {s s' : PoolState}
    (hstep : PoolStep targets net times s s')
    (hinv : PoolInv targets concurrency s) :
    PoolInv targets concurrency s' := by
  obtain ⟨hlen, hcur, hclaims, hcov, hdone, hcomp⟩ := hinv
  cases hstep with
  | claim cursor l1 l2 cl cp st hc =>
      refine ⟨?_, ?_, ?_, ?_, ?_, ?_⟩
      · simp only [List.length_append, List.length_cons] at hlen ⊢
        exact hlen
      · simp only at hcur ⊢
        omega
      · simp only [List.map_append, List.map_cons, List.map_nil] at hclaims ⊢
        rw [List.range_succ, ← hclaims]
      · intro i hi
        simp only at hi
        rcases Nat.lt_succ_iff_lt_or_eq.mp hi with hlt | heq
        · rcases hcov i hlt with hcpl | hw
          · exact Or.inl hcpl
          · right
            rcases List.mem_append.mp hw with h1 | h2
            · exact List.mem_append.mpr (Or.inl h1)
            · rcases List.mem_cons.mp h2 with habs | h2
              · simp at habs
              · exact List.mem_append.mpr (Or.inr (List.mem_cons_of_mem _ h2))
        · subst heq
          exact Or.inr (List.mem_append.mpr (Or.inr (List.mem_cons_self _ _)))
      · intro h
        have hmem : WStatus.done ∈ l1 ++ WStatus.idle :: l2 := by
          rcases List.mem_append.mp h with h1 | h2
          · exact List.mem_append.mpr (Or.inl h1)
          · rcases List.mem_cons.mp h2 with habs | h2
            · simp at habs
            · exact List.mem_append.mpr (Or.inr (List.mem_cons_of_mem _ h2))
        have := hdone hmem
        simp only at this ⊢
        omega
      · exact hcomp
  | finish cursor l1 l2 cl cp st hc =>
      refine ⟨?_, hcur, hclaims, ?_, ?_, hcomp⟩
      · simp only [List.length_append, List.length_cons] at hlen ⊢
        exact hlen
      · intro i hi
        rcases hcov i hi with hcpl | hw
        · exact Or.inl hcpl
        · right
          rcases List.mem_append.mp hw with h1 | h2
          · exact List.mem_append.mpr (Or.inl h1)
          · rcases List.mem_cons.mp h2 with habs | h2
            · simp at habs
            · exact List.mem_append.mpr (Or.inr (List.mem_cons_of_mem _ h2))
      · intro _
        exact hc
  | complete cursor l1 l2 idx cl cp st t ht =>
      refine ⟨?_, hcur, hclaims, ?_, ?_, ?_⟩
      · simp only [List.length_append, List.length_cons] at hlen ⊢
        exact hlen
      · intro i hi
        rcases hcov i hi with hcpl | hw
        · exact Or.inl (List.mem_cons_of_mem _ hcpl)
        · rcases List.mem_append.mp hw with h1 | h2
          · exact Or.inr (List.mem_append.mpr (Or.inl h1))
          · rcases List.mem_cons.mp h2 with heq | h2
            · cases heq
              exact Or.inl (List.mem_cons_self _ _)
            · exact Or.inr
                (List.mem_append.mpr (Or.inr (List.mem_cons_of_mem _ h2)))
      · intro h
        have hmem : WStatus.done ∈ l1 ++ WStatus.probing idx :: l2 := by
          rcases List.mem_append.mp h with h1 | h2
          · exact List.mem_append.mpr (Or.inl h1)
          · rcases List.mem_cons.mp h2 with habs | h2
            · simp at habs
            · exact List.mem_append.mpr (Or.inr (List.mem_cons_of_mem _ h2))
        exact hdone hmem
      · intro i hi
        rcases List.mem_cons.mp hi with heq | hmem
        · subst heq
          exact ⟨t, ht, probeEntry net times i, setStore_self st t.url _,
            probeEntry_status_ne_checking net times i⟩
        · obtain ⟨t', ht', e', he', hne'⟩ := hcomp i hmem
          by_cases hu : t'.url = t.url
          · exact ⟨t', ht', probeEntry net times idx,
              by rw [hu]; exact setStore_self st t.url _,
              probeEntry_status_ne_checking net times idx⟩
          · refine ⟨t', ht', e', ?_, hne'⟩
            show setStore st t.url (probeEntry net times idx) t'.url = some e'
            rw [setStore_other st t.url t'.url _ hu]
            exact he'

theorem reachable_inv {targets : List Target}
    {net : Nat → FetchOutcome1 × FetchOutcome2} {times : Nat → Nat}
    {concurrency : Nat} {st0 : StateStore} {t0 : Nat} {s : PoolState}
    (h : Reachable targets net times (initState targets concurrency st0 t0) s) :
    PoolInv targets concurrency s := by
  induction h with
  | refl => exact initState_inv targets concurrency st0 t0
  | tail hsteps hstep ih => exact poolStep_inv hstep ih

theorem terminal_cursor (targets : List Target) {concurrency : Nat}
    {s : PoolState} (hinv : PoolInv targets concurrency s) (hterm : Terminal s)
    (hconc : 1 ≤ concurrency) : s.cursor = targets.length := by
  have hlen := hinv.workersLen
  cases hws : s.workers with
  | nil => rw [hws] at hlen; simp at hlen; omega
  | cons w rest =>
      have hw : w ∈ s.workers := by rw [hws]; exact List.mem_cons_self _ _
      have hd : w = WStatus.done := hterm w hw
      have h1 := hinv.doneCursor (hd ▸ hw)
      have h2 := hinv.cursorLe
      omega

theorem terminal_all_completed (targets : List Target) {concurrency : Nat}
    {s : PoolState} (hinv : PoolInv targets concurrency s) (hterm : Terminal s)
    (hconc : 1 ≤ concurrency) : ∀ i < targets.length, i ∈ s.completed := by
  intro i hi
  have hcur := terminal_cursor targets hinv hterm hconc
  rcases hinv.coverage i (by omega) with h | h
  · exact h
  · have := hterm _ h
    simp at this

/-! ## C5, C6, C7: worker-pool claims -/

/-- C5: when a cycle's pool state is terminal (all worker tasks exited,
so `Promise.all` and with it `runCycle` resolve), every target has a
stored entry — exactly one, since the store is a map with one slot per
URL — whose status is not CHECKING and is one of UP, UP_OPAQUE, SLOW,
DOWN; CHECKING is observable only mid-cycle. -/
theorem runCycle_completeness (targets : List Target)
    (net : Nat → FetchOutcome1 × FetchOutcome2) (times : Nat → Nat)
    (concurrency : Nat) (st0 : StateStore) (t0 : Nat) (s : PoolState)
    (hconc : 1 ≤ concurrency)
    (hreach : Reachable targets net times (initState targets concurrency st0 t0) s)
    (hterm : Terminal s) :
    ∀ t ∈ targets, ∃ e, s.store t.url = some e ∧
      e.status ≠ Status.CHECKING ∧
      (e.status = Status.UP ∨ e.status = Status.UP_OPAQUE ∨
       e.status = Status.SLOW ∨ e.status = Status.DOWN) := by
  intro t ht
  have hinv := reachable_inv hreach
  obtain ⟨i, hlt, hi⟩ := List.mem_iff_getElem.mp ht
  have hi2 : targets[i]? = some t := by
    rw [List.getElem?_eq_getElem hlt, hi]
  have hic := terminal_all_completed targets hinv hterm hconc i hlt
  obtain ⟨t', ht', e, he, hne⟩ := hinv.completedDone i hic
  have htt : t' = t := by
    rw [hi2] at ht'
    exact (Option.some.injEq _ _).mp ht'.symm
  subst htt
  refine ⟨e, he, hne, ?_⟩
  cases hstat : e.status with
  | CHECKING => exact absurd hstat hne
  | UP => exact Or.inl rfl
  | UP_OPAQUE => exact Or.inr (Or.inl rfl)
  | SLOW => exact Or.inr (Or.inr (Or.inl rfl))
  | DOWN => exact Or.inr (Or.inr (Or.inr rfl))

/-- C6: the pool starts exactly `concurrency` worker tasks (the worker
list of the initial state has length `concurrency`), and in every
reachable state of a cycle at most `concurrency` probes are in flight,
because each of the `concurrency` tasks awaits at most one probe at a
time. -/
theorem concurrency_bound (targets : List Target)
    (net : Nat → FetchOutcome1 × FetchOutcome2) (times : Nat → Nat)
    (concurrency : Nat) (st0 : StateStore) (t0 : Nat) (s : PoolState)
    (hreach : Reachable targets net times (initState targets concurrency st0 t0) s) :
    (initState targets concurrency st0 t0).workers.length = concurrency ∧
    inFlight s ≤ concurrency := by
  have hinv := reachable_inv hreach
  constructor
  · simp [initState]
  · calc inFlight s ≤ s.workers.length := List.countP_le_length _
      _ = concurrency := hinv.workersLen

/-- C7: at the end of a cycle the shared cursor has handed out every
index of the target list exactly once: the trace of claims, projected to
claimed indices, is precisely 0, 1, ..., n-1 in claim order, so every
target is claimed exactly once (count 1), no target is skipped, and no
index was claimed by two different worker tasks. Each task probes its
claimed targets sequentially (a worker holds at most one `probing`
state), while tasks interleave with each other. -/
theorem claims_exactly_once (targets : List Target)
    (net : Nat → FetchOutcome1 × FetchOutcome2) (times : Nat → Nat)
    (concurrency : Nat) (st0 : StateStore) (t0 : Nat) (s : PoolState)
    (hconc : 1 ≤ concurrency)
    (hreach : Reachable targets net times (initState targets concurrency st0 t0) s)
    (hterm : Terminal s) :
    s.claims.map Prod.snd = List.range targets.length ∧
    (∀ i < targets.length, (s.claims.map Prod.snd).count i = 1) ∧
    (∀ j1 j2 i, (j1, i) ∈ s.claims → (j2, i) ∈ s.claims → j1 = j2) := by
  have hinv := reachable_inv hreach
  have hcur := terminal_cursor targets hinv hterm hconc
  have hclaims : s.claims.map Prod.snd = List.range targets.length := by
    rw [hinv.claimsEq, hcur]
  refine ⟨hclaims, ?_, ?_⟩
  · intro i hi
    rw [hclaims]
    exact List.count_eq_one_of_mem (List.nodup_range _) (List.mem_range.mpr hi)
  · intro j1 j2 i h1 h2
    have hnd : (s.claims.map Prod.snd).Nodup := by
      rw [hclaims]; exact List.nodup_range _
    have heq : (j1, i) = (j2, i) :=
      List.inj_on_of_nodup_map hnd h1 h2 rfl
    exact congrArg Prod.fst heq

/-! ## A concrete terminal run for the pool witnesses -/

theorem demoRun_reachable :
    Reachable demoTargets demoNet demoTimes
      (initState demoTargets 1 emptyStore 0) demoRunState := by
  have h1 : PoolStep demoTargets demoNet demoTimes
      (initState demoTargets 1 emptyStore 0)
      ⟨1, [WStatus.probing 0], [(0, 0)], [],
        setChecking demoTargets emptyStore 0⟩ :=
    PoolStep.claim 0 [] [] [] [] (setChecking demoTargets emptyStore 0)
      (by simp [demoTargets])
  have h2 : PoolStep demoTargets demoNet demoTimes
      ⟨1, [WStatus.probing 0], [(0, 0)], [],
        setChecking demoTargets emptyStore 0⟩
      ⟨1, [WStatus.idle], [(0, 0)], [0],
        setStore (setChecking demoTargets emptyStore 0) demoTarget.url
          (probeEntry demoNet demoTimes 0)⟩ :=
    PoolStep.complete 1 [] [] 0 [(0, 0)] []
      (setChecking demoTargets emptyStore 0) demoTarget rfl
  have h3 : PoolStep demoTargets demoNet demoTimes
      ⟨1, [WStatus.idle], [(0, 0)], [0],
        setStore (setChecking demoTargets emptyStore 0) demoTarget.url
          (probeEntry demoNet demoTimes 0)⟩
      demoRunState :=
    PoolStep.finish 1 [] [] [(0, 0)] [0]
      (setStore (setChecking demoTargets emptyStore 0) demoTarget.url
        (probeEntry demoNet demoTimes 0))
      (by simp [demoTargets])
  exact Relation.ReflTransGen.tail
    (Relation.ReflTransGen.tail (Relation.ReflTransGen.single h1) h2) h3

theorem demoRunState_terminal : Terminal demoRunState := by
  intro w hw
  simp [demoRunState] at hw
  exact hw

/-- C5 witness: in the final state of a concrete one-target, one-worker
cycle, the target's stored entry exists and is non-CHECKING. -/
theorem runCycle_completeness_witness :
    ∃ e, demoRunState.store demoTarget.url = some e ∧
      e.status ≠ Status.CHECKING ∧
      (e.status = Status.UP ∨ e.status = Status.UP_OPAQUE ∨
       e.status = Status.SLOW ∨ e.status = Status.DOWN) :=
  runCycle_completeness demoTargets demoNet demoTimes 1 emptyStore 0
    demoRunState (Nat.le_refl 1) demoRun_reachable demoRunState_terminal
    demoTarget (by simp [demoTargets])

/-- C6 witness: a concrete reachable state of a two-worker cycle has at
most two probes in flight. -/
theorem concurrency_bound_witness :
    (initState demoTargets 2 emptyStore 0).workers.length = 2 ∧
    inFlight (initState demoTargets 2 emptyStore 0) ≤ 2 :=
  concurrency_bound demoTargets demoNet demoTimes 2 emptyStore 0
    (initState demoTargets 2 emptyStore 0) Relation.ReflTransGen.refl

/-- C7 witness: in the concrete demo cycle the claim trace covers index 0
exactly once. -/
theorem claims_exactly_once_witness :
    demoRunState.claims.map Prod.snd = List.range demoTargets.length ∧
    (demoRunState.claims.map Prod.snd).count 0 = 1 :=
  ⟨(claims_exactly_once demoTargets demoNet demoTimes 1 emptyStore 0
      demoRunState (Nat.le_refl 1) demoRun_reachable demoRunState_terminal).1,
   (claims_exactly_once demoTargets demoNet demoTimes 1 emptyStore 0
      demoRunState (Nat.le_refl 1) demoRun_reachable demoRunState_terminal).2.1
      0 (by simp [demoTargets])⟩

end NetworkDashboard
